import Mathlib

/-!
Shallow embedding of `src/index.js` of fint-webhook-deployer.

The program is a webhook server (setupServer) that, on a legal request,
calls the orchestrator `dockerDeploy(pkgName, version)`, which forks
`dockerStop(pkgName)` and `dockerPull(pkgName, version)` via `Q.all`,
and on join success issues `docker.run` and resolves its deferred
immediately.  The container runtime (dockerode) is modelled as an
oracle assigning a result to each operation; the asynchronous callback
arrivals inside `dockerStop` are modelled as an explicit event list
(the arrival order of kill/remove callbacks).  Q deferreds settle
exactly once: a second resolve/reject is a no-op, captured by `settleD`.
-/

namespace FintWebhook

/-- An entry of the `docker.listContainers` result: `containerInfo.Id`
and `containerInfo.Image` are the only fields the program reads. -/
structure ContainerInfo where
  id : Nat
  image : String
deriving DecidableEq, Repr

/-- Runtime oracle for the operations used by `dockerStop`:
the result of `docker.listContainers` (error or container list), and for
each container id the error (if any) passed to the `container.kill` and
`container.remove` callbacks. -/
structure StopRt where
  listResult : Except String (List ContainerInfo)
  killErr : Nat → Option String
  removeErr : Nat → Option String

/-- One settlement step of a Q deferred: the first resolve/reject wins,
later ones are no-ops. -/
def settleD (d : Option (Except String Unit)) (v : Except String Unit) :
    Option (Except String Unit) :=
  match d with
  | some w => some w
  | none => some v

/-- The deferred `d` after the (optional) settlement `o` has been
offered to it. -/
def orSettle (d o : Option (Except String Unit)) : Option (Except String Unit) :=
  match d with
  | some w => some w
  | none => o

/-- Ids of the listed containers whose `Image` field is strictly equal
(JS `===`) to the package name — the containers `dockerStop` matches. -/
def matchedIds (cs : List ContainerInfo) (pkg : String) : List Nat :=
  (cs.filter (fun c => c.image = pkg)).map ContainerInfo.id

/-- A callback arrival inside `dockerStop`: the kill callback or the
remove callback of the container with the given id. -/
inductive StopEv where
  | killCb (i : Nat)
  | removeCb (i : Nat)
deriving DecidableEq, Repr

/-- Mutable state of one `dockerStop` invocation while callbacks arrive:
the deferred `containerStopped` and the list of container ids on which
`container.remove` has been invoked so far. -/
structure StopState where
  deferred : Option (Except String Unit)
  removesInvoked : List Nat
deriving Repr

/-- Effect of one callback arrival, mirroring the callback bodies in
`dockerStop`: a kill error rejects the deferred (and skips the remove);
a successful kill invokes `container.remove`; a remove error rejects;
a successful remove resolves.  Rejections/resolutions on an already
settled deferred are no-ops (`settleD`). -/
def stopStep (rt : StopRt) (s : StopState) (e : StopEv) : StopState :=
  match e with
  | StopEv.killCb i =>
    match rt.killErr i with
    | some err => { s with deferred := settleD s.deferred (Except.error err) }
    | none => { s with removesInvoked := s.removesInvoked ++ [i] }
  | StopEv.removeCb i =>
    match rt.removeErr i with
    | some err => { s with deferred := settleD s.deferred (Except.error err) }
    | none => { s with deferred := settleD s.deferred (Except.ok ()) }

/-- Process a list of callback arrivals in order. -/
def stopRun (rt : StopRt) (s : StopState) (evs : List StopEv) : StopState :=
  evs.foldl (stopStep rt) s

/-- Observable trace of one `dockerStop(pkgName)` invocation:
the final deferred (`none` = never settled), which containers got
`kill` and `remove` invoked, and whether the listContainers callback
crashed (it dereferences `containers.length` without checking `err`,
so a list error throws and the deferred never settles). -/
structure StopTrace where
  deferred : Option (Except String Unit)
  killsInvoked : List Nat
  removesInvoked : List Nat
  crashed : Bool
deriving Repr

/-- Model of `dockerStop(pkgName)` under the oracle `rt`, with kill/remove
callbacks arriving in the order `evs`.  Mirrors the source: on a list
error the callback throws (`crashed`, deferred never settles); an empty
container list resolves; every matching container gets `kill` invoked
during the `forEach`; if no container matched, the deferred resolves. -/
def dockerStopModel (rt : StopRt) (pkg : String) (evs : List StopEv) : StopTrace :=
  match rt.listResult with
  | Except.error _ =>
    { deferred := none, killsInvoked := [], removesInvoked := [], crashed := true }
  | Except.ok cs =>
    let d0 : Option (Except String Unit) :=
      if cs.isEmpty then some (Except.ok ()) else none
    let matched := matchedIds cs pkg
    let d1 := if matched.isEmpty then settleD d0 (Except.ok ()) else d0
    let s := stopRun rt { deferred := d1, removesInvoked := [] } evs
    { deferred := s.deferred, killsInvoked := matched,
      removesInvoked := s.removesInvoked, crashed := false }

/-- The settlement (if any) a single callback arrival offers to the
deferred: a kill error rejects; a remove callback rejects on error and
resolves on success; a successful kill settles nothing. -/
def evSettle (rt : StopRt) : StopEv → Option (Except String Unit)
  | StopEv.killCb i => (rt.killErr i).map Except.error
  | StopEv.removeCb i =>
    match rt.removeErr i with
    | some err => some (Except.error err)
    | none => some (Except.ok ())

/-- The settlement offered by the first settling callback in arrival
order — the value a fresh deferred ends up with. -/
def firstSettle (rt : StopRt) (evs : List StopEv) : Option (Except String Unit) :=
  evs.findSome? (evSettle rt)

/-- Whether a callback arrival is possible at all in a `dockerStop` run
with the given matched ids: only matched containers get `kill` invoked,
and `remove` only where the kill succeeded. -/
def evOk (rt : StopRt) (matched : List Nat) : StopEv → Bool
  | StopEv.killCb i => decide (i ∈ matched)
  | StopEv.removeCb i => decide (i ∈ matched) && decide (rt.killErr i = none)

/-- A complete, causally possible arrival order for one `dockerStop`
run: every matched container's kill callback arrives; the remove
callback arrives for every matched container whose kill succeeded; and
no impossible callback occurs.  (This over-approximates the reachable
schedules — e.g. it does not force a kill callback to precede its
remove callback — so universally quantified theorems below cover every
real schedule.) -/
def ValidSched (rt : StopRt) (matched : List Nat) (evs : List StopEv) : Prop :=
  (∀ i ∈ matched, StopEv.killCb i ∈ evs) ∧
  (∀ i ∈ matched, rt.killErr i = none → StopEv.removeCb i ∈ evs) ∧
  (∀ e ∈ evs, evOk rt matched e = true)

instance (rt : StopRt) (matched : List Nat) (evs : List StopEv) :
    Decidable (ValidSched rt matched evs) := by
  unfold ValidSched; infer_instance

/-- The characters after the first slash, if any slash occurs.  This is
JS `str.substring(str.indexOf('/') + 1)` split into the found/not-found
cases. -/
def afterFirstSlash? : List Char → Option (List Char)
  | [] => none
  | c :: cs => if c = '/' then some cs else afterFirstSlash? cs

/-- The container name computed in `dockerDeploy`:
`pkgName.substring(pkgName.indexOf('/') + 1)` — i.e. everything after
the FIRST `/`, or the whole string when no `/` occurs (indexOf = -1,
substring(0)). -/
def containerName (pkg : String) : String :=
  match afterFirstSlash? pkg.data with
  | some l => String.mk l
  | none => pkg

/-- Modelled from the spec: "the substring of `package` after its last
path separator" — everything after the LAST `/` (the whole string when
no `/` occurs).  Stated for comparison with `containerName`. -/
def specLastSegment (pkg : String) : String :=
  String.mk ((pkg.data.reverse.takeWhile (fun c => c ≠ '/')).reverse)

/-- The image reference handed to `docker.pull`:
`pkgName + (version ? ':' + version : '')`.  JS truthiness makes an
empty-string version behave like an absent one. -/
def pullRef (pkg : String) (version : Option String) : String :=
  match version with
  | some v => if v = "" then pkg else pkg ++ ":" ++ v
  | none => pkg

/-- Runtime oracle for a whole deployment: the `dockerStop` oracle, the
error (if any) passed to the `docker.pull` callback, the error (if any)
passed to `followProgress`'s `onFinished`, and the error (if any)
passed to the `docker.run` callback. -/
structure Rt where
  stop : StopRt
  pullErr : Option String
  finishErr : Option String
  runErr : Option String

/-- Settlement of the `dockerPull` deferred: reject on a pull error,
else reject on an onFinished error, else resolve. -/
def pullOutcome (rt : Rt) : Except String Unit :=
  match rt.pullErr with
  | some e => Except.error e
  | none =>
    match rt.finishErr with
    | some e => Except.error e
    | none => Except.ok ()

/-- Join success of `Q.all([stop, pull])`: true iff both forks settled
successfully. -/
def joinOk (stopRes : Option (Except String Unit)) (p : Except String Unit) : Bool :=
  match stopRes, p with
  | some (Except.ok _), Except.ok _ => true
  | _, _ => false

/-- The rejection (if any) of `Q.all([stop, pull])`: the first fork
rejection in settlement time; `stopFirst` says which fork settled first
when both reject; a rejecting pull fails the join even if the stop fork
never settles (fail-fast). `none` means the join never rejects (both
succeed, or the stop fork never settles while pull succeeds). -/
def joinErr (stopRes : Option (Except String Unit)) (p : Except String Unit)
    (stopFirst : Bool) : Option String :=
  match stopRes, p with
  | some (Except.error e), Except.ok _ => some e
  | some (Except.ok _), Except.error e => some e
  | some (Except.error e1), Except.error e2 => some (if stopFirst then e1 else e2)
  | none, Except.error e => some e
  | _, _ => none

/-- The settlement the `docker.run` callback offers to the deploy
deferred: reject on error, nothing otherwise (the success branch only
logs). -/
def runCbResult : Option String → Except String Unit
  | some e => Except.error e
  | none => Except.ok ()

/-- Observable trace of one `dockerDeploy(pkgName, version)` call. -/
structure DeployResult where
  pulledImage : String
  stopTrace : StopTrace
  runInvoked : Bool
  runImage : Option String
  runName : Option String
  resolvedBeforeRunCb : Bool
  outcome : Option (Except String Unit)
deriving Repr

/-- Model of `dockerDeploy(pkgName, version)` under oracle `rt`, stop-fork
callback order `evs`, and `stopFirst` telling which fork settles first.
Mirrors the source: `Q.all([dockerStop, dockerPull])`; on join success
the `.then` handler invokes `docker.run(pkgName, …, {name}, cb)` and
then immediately calls `deployCompleted.resolve()` — so the deferred is
already resolved when the run callback later fires, and a run error's
`reject` is a no-op (`settleD`).  On join rejection the `.catch`
handler rejects with the join's error. -/
def dockerDeploy (rt : Rt) (pkg : String) (ver : Option String)
    (evs : List StopEv) (stopFirst : Bool) : DeployResult :=
  let t := dockerStopModel rt.stop pkg evs
  let p := pullOutcome rt
  if joinOk t.deferred p then
    { pulledImage := pullRef pkg ver, stopTrace := t, runInvoked := true,
      runImage := some pkg, runName := some (containerName pkg),
      resolvedBeforeRunCb := true,
      outcome := settleD (some (Except.ok ())) (runCbResult rt.runErr) }
  else
    { pulledImage := pullRef pkg ver, stopTrace := t, runInvoked := false,
      runImage := none, runName := none, resolvedBeforeRunCb := false,
      outcome := (joinErr t.deferred p stopFirst).map Except.error }

/-- JS truthiness of the `req.body.package` field: a present, non-empty
string. -/
def truthyStr : Option String → Bool
  | none => false
  | some s => !(s = "")

/-- An HTTP response: status code and plain-text body.  The program
never assigns `res.statusCode`, so every `res.end` leaves Node's
default 200. -/
structure Response where
  status : Nat
  body : String
deriving DecidableEq, Repr

/-- The response the request handler sends once the deploy promise
settles: `'OK\n'` on resolution, `'ERROR\n' + err` on rejection. -/
def respOf : Except String Unit → Response
  | Except.ok _ => { status := 200, body := "OK\n" }
  | Except.error e => { status := 200, body := "ERROR\n" ++ e }

/-- Observable trace of the webhook handler on one request. -/
structure HandlerTrace where
  orchestratorInvoked : Bool
  orchestratorArgs : Option (String × Option String)
  response : Option Response
deriving Repr

/-- The request handler installed by `setupServer`: on `POST` with a
truthy `package`, invoke the orchestrator and answer from its settled
outcome (`none` = the promise never settles, no response is sent);
otherwise answer `'ILLEGAL REQUEST\n'` without invoking it.  The
orchestrator is abstracted as the function `deploy` from the package
and optional version to the settled outcome of its promise. -/
def handleRequest (deploy : String → Option String → Option (Except String Unit))
    (method : String) (package version : Option String) : HandlerTrace :=
  if method = "POST" ∧ truthyStr package = true then
    let p := package.getD ""
    { orchestratorInvoked := true,
      orchestratorArgs := some (p, version),
      response := (deploy p version).map respOf }
  else
    { orchestratorInvoked := false, orchestratorArgs := none,
      response := some { status := 200, body := "ILLEGAL REQUEST\n" } }

/-- Modelled from the spec: an HTTP status "indicating error" (4xx/5xx). -/
def errorStatus (s : Nat) : Prop := 400 ≤ s

instance (s : Nat) : Decidable (errorStatus s) := by
  unfold errorStatus; infer_instance

/-- A stop oracle whose list succeeds with the given containers and
whose kill/remove operations all succeed. -/
def mkStopRt (cs : List ContainerInfo) : StopRt :=
  { listResult := Except.ok cs, killErr := fun _ => none, removeErr := fun _ => none }

/-- A deployment oracle over `mkStopRt cs` where pull and run succeed. -/
def mkRt (cs : List ContainerInfo) : Rt :=
  { stop := mkStopRt cs, pullErr := none, finishErr := none, runErr := none }

/-- A deployment oracle with no containers whose run request is refused
by the runtime. -/
def rtRunRefused : Rt := { mkRt [] with runErr := some "run refused" }

/-- A deployment oracle with no containers whose run operation fails. -/
def rtRunFail : Rt := { mkRt [] with runErr := some "run failed" }

/-- A stop oracle with one matching container whose kill fails. -/
def stopKillFail : StopRt :=
  { listResult := Except.ok [{ id := 1, image := "p" }],
    killErr := fun _ => some "kill failed", removeErr := fun _ => none }

/-- A deployment oracle over `stopKillFail` whose pull and run succeed. -/
def rtKillFail : Rt :=
  { stop := stopKillFail, pullErr := none, finishErr := none, runErr := none }

/-- A stop oracle with two containers matching image `p` and one not. -/
def stopTwoMatch : StopRt :=
  mkStopRt [{ id := 1, image := "p" }, { id := 2, image := "p" }, { id := 3, image := "q" }]

/-- An orchestrator stub whose promise always rejects with reason `boom`. -/
def deployErrBoom : String → Option String → Option (Except String Unit) :=
  fun _ _ => some (Except.error "boom")

/-- A stop oracle with two containers matching image `p` where the kill
of container 1 fails and the kill of container 2 succeeds. -/
def stopKillOneFails : StopRt :=
  { listResult := Except.ok [{ id := 1, image := "p" }, { id := 2, image := "p" }],
    killErr := fun i => if i = 1 then some "kill failed" else none,
    removeErr := fun _ => none }


theorem orSettle_none (d : Option (Except String Unit)) : orSettle d none = d := by
  cases d <;> rfl

theorem orSettle_absorb (d : Option (Except String Unit)) (v : Except String Unit)
    (o : Option (Except String Unit)) :
    orSettle (orSettle d (some v)) o = orSettle d (some v) := by
  cases d <;> rfl

theorem stopStep_deferred (rt : StopRt) (s : StopState) (e : StopEv) :
    (stopStep rt s e).deferred = orSettle s.deferred (evSettle rt e) := by
  cases e with
  | killCb i =>
    cases h : rt.killErr i <;> cases hd : s.deferred <;>
      simp [stopStep, evSettle, h, settleD, orSettle, hd]
  | removeCb i =>
    cases h : rt.removeErr i <;> cases hd : s.deferred <;>
      simp [stopStep, evSettle, h, settleD, orSettle, hd]

theorem firstSettle_nil (rt : StopRt) : firstSettle rt [] = none := rfl

theorem firstSettle_cons (rt : StopRt) (e : StopEv) (evs : List StopEv) :
    firstSettle rt (e :: evs) =
      match evSettle rt e with
      | some v => some v
      | none => firstSettle rt evs := by
  cases h : evSettle rt e <;> simp [firstSettle, List.findSome?, h]

theorem stopRun_deferred (rt : StopRt) (evs : List StopEv) (s : StopState) :
    (stopRun rt s evs).deferred = orSettle s.deferred (firstSettle rt evs) := by
  induction evs generalizing s with
  | nil => simp [stopRun, firstSettle_nil, orSettle_none]
  | cons e evs ih =>
    have hstep : stopRun rt s (e :: evs) = stopRun rt (stopStep rt s e) evs := rfl
    rw [hstep, ih, stopStep_deferred, firstSettle_cons]
    cases h : evSettle rt e with
    | some v => simp [orSettle_absorb]
    | none => simp [orSettle_none]

theorem stopRun_removes_mem (rt : StopRt) (evs : List StopEv) (s : StopState) (i : Nat) :
    i ∈ (stopRun rt s evs).removesInvoked ↔
      i ∈ s.removesInvoked ∨ (StopEv.killCb i ∈ evs ∧ rt.killErr i = none) := by
  induction evs generalizing s with
  | nil => simp [stopRun]
  | cons e evs ih =>
    have hstep : stopRun rt s (e :: evs) = stopRun rt (stopStep rt s e) evs := rfl
    rw [hstep, ih]
    cases e with
    | killCb j =>
      by_cases hij : i = j
      · subst hij
        cases h : rt.killErr i <;> simp [stopStep, h]
      · cases h : rt.killErr j with
        | some err => simp [stopStep, h, hij]
        | none => simp [stopStep, h, List.mem_append, hij]
    | removeCb j =>
      cases h : rt.removeErr j <;> simp [stopStep, h, settleD]

theorem matchedIds_mem (cs : List ContainerInfo) (pkg : String) (i : Nat) :
    i ∈ matchedIds cs pkg ↔ ∃ c, c ∈ cs ∧ c.image = pkg ∧ c.id = i := by
  simp [matchedIds, List.mem_map, List.mem_filter, decide_eq_true_iff]
  tauto

theorem validSched_nil_of_no_match (rt : StopRt) (evs : List StopEv)
    (h : ValidSched rt [] evs) : evs = [] := by
  cases evs with
  | nil => rfl
  | cons e evs =>
    exfalso
    have he := h.2.2 e (by simp)
    cases e <;> simp [evOk] at he

theorem firstSettle_isSome_of_mem (rt : StopRt) (evs : List StopEv) (e : StopEv)
    (he : e ∈ evs) (v : Except String Unit) (hv : evSettle rt e = some v) :
    ∃ w, firstSettle rt evs = some w := by
  induction evs with
  | nil => simp at he
  | cons a evs ih =>
    rw [firstSettle_cons]
    cases h : evSettle rt a with
    | some w => exact ⟨w, rfl⟩
    | none =>
      rcases List.mem_cons.mp he with rfl | hmem
      · rw [h] at hv; exact absurd hv (by simp)
      · exact ih hmem

theorem joinOk_iff (d : Option (Except String Unit)) (p : Except String Unit) :
    joinOk d p = true ↔ (d = some (Except.ok ()) ∧ p = Except.ok ()) := by
  cases d with
  | none => cases p <;> simp [joinOk]
  | some x =>
    cases x with
    | ok u => cases u; cases p <;> simp [joinOk]
    | error e => cases p <;> simp [joinOk]


theorem dockerDeploy_stopTrace (rt : Rt) (pkg : String) (ver : Option String)
    (evs : List StopEv) (stopFirst : Bool) :
    (dockerDeploy rt pkg ver evs stopFirst).stopTrace = dockerStopModel rt.stop pkg evs := by
  unfold dockerDeploy
  by_cases h : joinOk (dockerStopModel rt.stop pkg evs).deferred (pullOutcome rt) = true <;>
    simp [h]

theorem dockerDeploy_pulledImage (rt : Rt) (pkg : String) (ver : Option String)
    (evs : List StopEv) (stopFirst : Bool) :
    (dockerDeploy rt pkg ver evs stopFirst).pulledImage = pullRef pkg ver := by
  unfold dockerDeploy
  by_cases h : joinOk (dockerStopModel rt.stop pkg evs).deferred (pullOutcome rt) = true <;>
    simp [h]

theorem dockerDeploy_runInvoked (rt : Rt) (pkg : String) (ver : Option String)
    (evs : List StopEv) (stopFirst : Bool) :
    (dockerDeploy rt pkg ver evs stopFirst).runInvoked =
      joinOk (dockerStopModel rt.stop pkg evs).deferred (pullOutcome rt) := by
  unfold dockerDeploy
  by_cases h : joinOk (dockerStopModel rt.stop pkg evs).deferred (pullOutcome rt) = true <;>
    simp [h]

theorem dockerDeploy_runName (rt : Rt) (pkg : String) (ver : Option String)
    (evs : List StopEv) (stopFirst : Bool)
    (h : joinOk (dockerStopModel rt.stop pkg evs).deferred (pullOutcome rt) = true) :
    (dockerDeploy rt pkg ver evs stopFirst).runName = some (containerName pkg) := by
  unfold dockerDeploy
  simp [h]

theorem dockerDeploy_outcome_ok (rt : Rt) (pkg : String) (ver : Option String)
    (evs : List StopEv) (stopFirst : Bool)
    (h : joinOk (dockerStopModel rt.stop pkg evs).deferred (pullOutcome rt) = true) :
    (dockerDeploy rt pkg ver evs stopFirst).outcome = some (Except.ok ()) := by
  unfold dockerDeploy
  simp [h, settleD]

theorem dockerDeploy_outcome_fail (rt : Rt) (pkg : String) (ver : Option String)
    (evs : List StopEv) (stopFirst : Bool)
    (h : joinOk (dockerStopModel rt.stop pkg evs).deferred (pullOutcome rt) = false) :
    (dockerDeploy rt pkg ver evs stopFirst).outcome =
      (joinErr (dockerStopModel rt.stop pkg evs).deferred (pullOutcome rt) stopFirst).map
        Except.error := by
  unfold dockerDeploy
  simp [h]

theorem dockerStopModel_kills (rt : StopRt) (pkg : String) (cs : List ContainerInfo)
    (evs : List StopEv) (hl : rt.listResult = Except.ok cs) :
    (dockerStopModel rt pkg evs).killsInvoked = matchedIds cs pkg := by
  simp only [dockerStopModel, hl]

theorem dockerStopModel_removes_mem (rt : StopRt) (pkg : String) (cs : List ContainerInfo)
    (evs : List StopEv) (hl : rt.listResult = Except.ok cs) (i : Nat) :
    i ∈ (dockerStopModel rt pkg evs).removesInvoked ↔
      (StopEv.killCb i ∈ evs ∧ rt.killErr i = none) := by
  simp only [dockerStopModel, hl]
  rw [stopRun_removes_mem]
  simp

theorem matchedIds_nil (pkg : String) : matchedIds [] pkg = [] := rfl

theorem dockerStopModel_deferred_matched (rt : StopRt) (pkg : String)
    (cs : List ContainerInfo) (evs : List StopEv)
    (hl : rt.listResult = Except.ok cs) (hm : matchedIds cs pkg ≠ []) :
    (dockerStopModel rt pkg evs).deferred = firstSettle rt evs := by
  have hcs : cs ≠ [] := by
    intro h; subst h; exact hm (matchedIds_nil pkg)
  simp only [dockerStopModel, hl]
  rw [stopRun_deferred]
  have h1 : cs.isEmpty = false := by
    cases cs with
    | nil => exact absurd rfl hcs
    | cons a l => rfl
  have h2 : (matchedIds cs pkg).isEmpty = false := by
    cases h : matchedIds cs pkg with
    | nil => exact absurd h hm
    | cons a l => rfl
  simp [h1, h2, orSettle]

theorem firstSettle_append (rt : StopRt) (evs1 evs2 : List StopEv) :
    firstSettle rt (evs1 ++ evs2) =
      match firstSettle rt evs1 with
      | some v => some v
      | none => firstSettle rt evs2 := by
  induction evs1 with
  | nil => simp [firstSettle_nil]
  | cons e evs ih =>
    rw [List.cons_append, firstSettle_cons, firstSettle_cons]
    cases h : evSettle rt e <;> simp [ih]

theorem afterFirstSlash?_of_no_slash (l : List Char) (h : '/' ∉ l) :
    afterFirstSlash? l = none := by
  induction l with
  | nil => rfl
  | cons c cs ih =>
    simp only [List.mem_cons, not_or] at h
    rw [afterFirstSlash?]
    rw [if_neg (fun hc => h.1 hc.symm)]
    exact ih h.2

theorem afterFirstSlash?_append (a b : List Char) (h : '/' ∉ a) :
    afterFirstSlash? (a ++ '/' :: b) = some b := by
  induction a with
  | nil => simp [afterFirstSlash?]
  | cons c cs ih =>
    simp only [List.mem_cons, not_or] at h
    rw [List.cons_append, afterFirstSlash?]
    rw [if_neg (fun hc => h.1 hc.symm)]
    exact ih h.2

theorem containerName_no_slash (pkg : String) (h : '/' ∉ pkg.data) :
    containerName pkg = pkg := by
  unfold containerName
  rw [afterFirstSlash?_of_no_slash pkg.data h]

theorem containerName_split (pkg : String) (a b : List Char)
    (hd : pkg.data = a ++ '/' :: b) (ha : '/' ∉ a) :
    containerName pkg = String.mk b := by
  unfold containerName
  rw [hd, afterFirstSlash?_append a b ha]


/-- Claim C2: the run step executes exactly when both forks settled
successfully; if the stop fork or the pull fork fails, `docker.run` is
never invoked, regardless of the other fork's outcome (and it is also
not invoked when the stop fork never settles). -/
theorem c2_run_requires_both_forks (rt : Rt) (pkg : String) (ver : Option String)
    (evs : List StopEv) (stopFirst : Bool) :
    (dockerDeploy rt pkg ver evs stopFirst).runInvoked = true ↔
      ((dockerStopModel rt.stop pkg evs).deferred = some (Except.ok ()) ∧
        pullOutcome rt = Except.ok ()) := by
  rw [dockerDeploy_runInvoked, joinOk_iff]

/-- Claim C3 counterexample: a deployment with no containers, successful
stop and pull forks, and a run request that the runtime REJECTS still
resolves Success, and the deferred is resolved before the run callback
fires: the orchestrator does not resolve "exactly when the run request
is accepted". -/
theorem c3_cex :
    rtRunRefused.runErr = some "run refused" ∧
    (dockerDeploy rtRunRefused "org/svc" none [] true).outcome = some (Except.ok ()) ∧
    (dockerDeploy rtRunRefused "org/svc" none [] true).resolvedBeforeRunCb = true :=
  ⟨rfl, rfl, rfl⟩

/-- Claim C3 (amended): whenever the stop and pull forks both settle
successfully, the orchestrator resolves Done(Success) immediately upon
issuing the run request — before the runtime accepts or rejects it —
and the outcome is Success regardless of the run result; subsequent run
callbacks and lifecycle events cannot change the already settled
outcome. -/
theorem c3_amended (rt : Rt) (pkg : String) (ver : Option String)
    (evs : List StopEv) (stopFirst : Bool)
    (hs : (dockerStopModel rt.stop pkg evs).deferred = some (Except.ok ()))
    (hp : pullOutcome rt = Except.ok ()) :
    (dockerDeploy rt pkg ver evs stopFirst).resolvedBeforeRunCb = true ∧
    (dockerDeploy rt pkg ver evs stopFirst).outcome = some (Except.ok ()) := by
  have hj : joinOk (dockerStopModel rt.stop pkg evs).deferred (pullOutcome rt) = true :=
    (joinOk_iff _ _).mpr ⟨hs, hp⟩
  refine ⟨?_, dockerDeploy_outcome_ok rt pkg ver evs stopFirst hj⟩
  unfold dockerDeploy
  simp [hj]

theorem c3_amended_witness :
    (dockerDeploy rtRunRefused "org/svc" none [] true).resolvedBeforeRunCb = true ∧
    (dockerDeploy rtRunRefused "org/svc" none [] true).outcome = some (Except.ok ()) :=
  c3_amended rtRunRefused "org/svc" none [] true rfl rfl

/-- Claim C4 counterexample: with a present but empty-string version the
image reference passed to pull is `package` alone — not
`package ++ ":" ++ version` as the claim requires for a present version
(JS truthiness makes `version ? ':' + version : ''` treat `""` as
absent). -/
theorem c4_cex :
    (dockerDeploy (mkRt []) "p" (some "") [] true).pulledImage = "p" ∧
    ("p" : String) ≠ "p" ++ ":" ++ "" :=
  ⟨rfl, by decide⟩

/-- Claim C4 (amended): the image reference passed to pull equals
`package:version` when a present version is non-empty, and `package`
alone when the version is absent OR the empty string; the string
matched against existing containers' image fields is always `package`
alone regardless of version: a listed container gets `kill` invoked iff
its image field equals `package`. -/
theorem c4_amended (rt : Rt) (pkg : String) (ver : Option String)
    (evs : List StopEv) (stopFirst : Bool) (cs : List ContainerInfo)
    (hl : rt.stop.listResult = Except.ok cs) :
    ((dockerDeploy rt pkg ver evs stopFirst).pulledImage = pullRef pkg ver) ∧
    (ver = none → pullRef pkg ver = pkg) ∧
    (∀ v, ver = some v → v ≠ "" → pullRef pkg ver = pkg ++ ":" ++ v) ∧
    (ver = some "" → pullRef pkg ver = pkg) ∧
    (∀ i, i ∈ (dockerDeploy rt pkg ver evs stopFirst).stopTrace.killsInvoked ↔
      ∃ c, c ∈ cs ∧ c.image = pkg ∧ c.id = i) := by
  refine ⟨dockerDeploy_pulledImage rt pkg ver evs stopFirst, ?_, ?_, ?_, ?_⟩
  · intro h; subst h; rfl
  · intro v h hv; subst h; simp [pullRef, hv]
  · intro h; subst h; rfl
  · intro i
    rw [dockerDeploy_stopTrace, dockerStopModel_kills rt.stop pkg cs evs hl,
      matchedIds_mem]

theorem c4_amended_witness :
    ((dockerDeploy (mkRt [{ id := 1, image := "p" }]) "p" (some "2.0")
        [StopEv.killCb 1, StopEv.removeCb 1] true).pulledImage =
      pullRef "p" (some "2.0")) ∧
    (1 ∈ (dockerDeploy (mkRt [{ id := 1, image := "p" }]) "p" (some "2.0")
        [StopEv.killCb 1, StopEv.removeCb 1] true).stopTrace.killsInvoked ↔
      ∃ c, c ∈ [({ id := 1, image := "p" } : ContainerInfo)] ∧ c.image = "p" ∧ c.id = 1) :=
  have h := c4_amended (mkRt [{ id := 1, image := "p" }]) "p" (some "2.0")
    [StopEv.killCb 1, StopEv.removeCb 1] true [{ id := 1, image := "p" }] rfl
  ⟨h.1, h.2.2.2.2 1⟩

/-- Claim C5 counterexample: for the package `a/b/c` (more than one `/`)
the name given to the new container is `b/c` — the substring after the
FIRST slash (`indexOf`), not the final path segment `c` that the
substring after the last slash would give. -/
theorem c5_cex :
    (dockerDeploy (mkRt []) "a/b/c" none [] true).runName = some "b/c" ∧
    specLastSegment "a/b/c" = "c" ∧ ("b/c" : String) ≠ "c" :=
  ⟨rfl, rfl, by decide⟩

/-- Claim C5 (amended): the name given to the newly run container equals
the substring of `package` after its FIRST `/` (the whole string when no
`/` occurs); for a package with a single `/` this is the final path
segment, but a package with more than one `/` keeps everything after the
first separator. -/
theorem c5_amended (rt : Rt) (pkg : String) (ver : Option String)
    (evs : List StopEv) (stopFirst : Bool)
    (hrun : (dockerDeploy rt pkg ver evs stopFirst).runInvoked = true) :
    ('/' ∉ pkg.data → (dockerDeploy rt pkg ver evs stopFirst).runName = some pkg) ∧
    (∀ a b, pkg.data = a ++ '/' :: b → '/' ∉ a →
      (dockerDeploy rt pkg ver evs stopFirst).runName = some (String.mk b)) := by
  rw [dockerDeploy_runInvoked] at hrun
  constructor
  · intro h
    rw [dockerDeploy_runName rt pkg ver evs stopFirst hrun, containerName_no_slash pkg h]
  · intro a b hd ha
    rw [dockerDeploy_runName rt pkg ver evs stopFirst hrun,
      containerName_split pkg a b hd ha]

theorem c5_amended_witness :
    (dockerDeploy (mkRt []) "x/y" none [] true).runName = some (String.mk ['y']) :=
  (c5_amended (mkRt []) "x/y" none [] true rfl).2 ['x'] ['y'] rfl (by decide)


/-- Claim C1 counterexample: a deployment in which every step succeeds
except the run operation, which the runtime fails — yet the
orchestrator's outcome is Success, not a Failure carrying that error:
the run error is silently swallowed because the deferred was already
resolved when the run callback fired. -/
theorem c1_cex :
    rtRunFail.runErr = some "run failed" ∧
    (dockerDeploy rtRunFail "svc" none [] true).outcome = some (Except.ok ()) :=
  ⟨rfl, rfl⟩

/-- Claim C1 (amended): kill, remove and pull errors each yield exactly
one Failure outcome carrying the first error encountered (the first
settling kill/remove failure of the stop fork, the pull error, or —
when both forks fail — whichever fork settled first); but a run error
is silently swallowed (the outcome is Success regardless), and a
listContainers error produces no outcome at all (the stop callback
crashes and, with a successful pull, the promise never settles). -/
theorem c1_amended (rt : Rt) (pkg : String) (ver : Option String)
    (evs : List StopEv) (stopFirst : Bool) :
    (∀ cs e, rt.stop.listResult = Except.ok cs →
      ValidSched rt.stop (matchedIds cs pkg) evs →
      firstSettle rt.stop evs = some (Except.error e) →
      pullOutcome rt = Except.ok () →
      (dockerDeploy rt pkg ver evs stopFirst).outcome = some (Except.error e)) ∧
    (∀ e, (dockerStopModel rt.stop pkg evs).deferred = some (Except.ok ()) →
      pullOutcome rt = Except.error e →
      (dockerDeploy rt pkg ver evs stopFirst).outcome = some (Except.error e)) ∧
    (∀ e1 e2, (dockerStopModel rt.stop pkg evs).deferred = some (Except.error e1) →
      pullOutcome rt = Except.error e2 →
      (dockerDeploy rt pkg ver evs stopFirst).outcome =
        some (Except.error (if stopFirst then e1 else e2))) ∧
    ((dockerStopModel rt.stop pkg evs).deferred = some (Except.ok ()) →
      pullOutcome rt = Except.ok () →
      (dockerDeploy rt pkg ver evs stopFirst).outcome = some (Except.ok ())) ∧
    (∀ e, rt.stop.listResult = Except.error e → pullOutcome rt = Except.ok () →
      (dockerDeploy rt pkg ver evs stopFirst).outcome = none) := by
  refine ⟨?_, ?_, ?_, ?_, ?_⟩
  · intro cs e hl hv hf hp
    have hm : matchedIds cs pkg ≠ [] := by
      intro hm0
      have hevs : evs = [] := validSched_nil_of_no_match rt.stop evs (hm0 ▸ hv)
      rw [hevs, firstSettle_nil] at hf
      exact absurd hf (by simp)
    have hd : (dockerStopModel rt.stop pkg evs).deferred = some (Except.error e) := by
      rw [dockerStopModel_deferred_matched rt.stop pkg cs evs hl hm, hf]
    have hj : joinOk (dockerStopModel rt.stop pkg evs).deferred (pullOutcome rt) = false := by
      rw [hd, hp]; rfl
    rw [dockerDeploy_outcome_fail rt pkg ver evs stopFirst hj, hd, hp]
    rfl
  · intro e hd hp
    have hj : joinOk (dockerStopModel rt.stop pkg evs).deferred (pullOutcome rt) = false := by
      rw [hd, hp]; rfl
    rw [dockerDeploy_outcome_fail rt pkg ver evs stopFirst hj, hd, hp]
    rfl
  · intro e1 e2 hd hp
    have hj : joinOk (dockerStopModel rt.stop pkg evs).deferred (pullOutcome rt) = false := by
      rw [hd, hp]; rfl
    rw [dockerDeploy_outcome_fail rt pkg ver evs stopFirst hj, hd, hp]
    rfl
  · intro hd hp
    exact dockerDeploy_outcome_ok rt pkg ver evs stopFirst
      ((joinOk_iff _ _).mpr ⟨hd, hp⟩)
  · intro e hl hp
    have hd : (dockerStopModel rt.stop pkg evs).deferred = none := by
      simp only [dockerStopModel, hl]
    have hj : joinOk (dockerStopModel rt.stop pkg evs).deferred (pullOutcome rt) = false := by
      rw [hd, hp]; rfl
    rw [dockerDeploy_outcome_fail rt pkg ver evs stopFirst hj, hd, hp]
    rfl

theorem c1_amended_witness :
    (dockerDeploy rtKillFail "p" none [StopEv.killCb 1] true).outcome =
      some (Except.error "kill failed") :=
  (c1_amended rtKillFail "p" none [StopEv.killCb 1] true).1
    [{ id := 1, image := "p" }] "kill failed" rfl (by decide) rfl rfl

/-- Claim C6: a request that is not a POST, or whose body lacks a
non-empty `package` field, is answered with exactly the illegal-request
body and the orchestrator is never invoked; a POST with a non-empty
`package` invokes the orchestrator with that package and the optional
version. -/
theorem c6_dispatch (deploy : String → Option String → Option (Except String Unit))
    (method : String) (package version : Option String) :
    ((method ≠ "POST" ∨ package = none ∨ package = some "") →
      (handleRequest deploy method package version).response =
        some { status := 200, body := "ILLEGAL REQUEST\n" } ∧
      (handleRequest deploy method package version).orchestratorInvoked = false) ∧
    (∀ p, method = "POST" → package = some p → p ≠ "" →
      (handleRequest deploy method package version).orchestratorInvoked = true ∧
      (handleRequest deploy method package version).orchestratorArgs = some (p, version)) := by
  constructor
  · intro h
    have hc : ¬(method = "POST" ∧ truthyStr package = true) := by
      rcases h with h | h | h
      · exact fun hx => h hx.1
      · subst h; exact fun hx => by simp [truthyStr] at hx
      · subst h; exact fun hx => by simp [truthyStr] at hx
    unfold handleRequest
    rw [if_neg hc]
    exact ⟨rfl, rfl⟩
  · intro p hm hp hne
    subst hm; subst hp
    have hc : ("POST" : String) = "POST" ∧ truthyStr (some p) = true := by
      refine ⟨rfl, ?_⟩
      simp [truthyStr, hne]
    unfold handleRequest
    rw [if_pos hc]
    exact ⟨rfl, rfl⟩

theorem c6_witness :
    ((handleRequest (fun _ _ => some (Except.ok ())) "GET" (some "p") none).orchestratorInvoked
        = false) ∧
    ((handleRequest (fun _ _ => some (Except.ok ())) "POST" (some "p") none).orchestratorArgs
        = some ("p", none)) :=
  ⟨((c6_dispatch (fun _ _ => some (Except.ok ())) "GET" (some "p") none).1
      (Or.inl (by decide))).2,
   ((c6_dispatch (fun _ _ => some (Except.ok ())) "POST" (some "p") none).2
      "p" rfl rfl (by decide)).2⟩

/-- Claim C7 counterexample: a deployment with two matching containers
in which the kill of container 1 fails: the schedule is a complete
valid run, container 1 matches and gets `kill` invoked, yet `remove` is
never invoked on it — `container.remove` is only called inside the kill
callback's success branch, so "stop and remove are invoked for every
matching container" fails. -/
theorem c7_cex :
    stopKillOneFails.killErr 1 = some "kill failed" ∧
    ValidSched stopKillOneFails
      (matchedIds [{ id := 1, image := "p" }, { id := 2, image := "p" }] "p")
      [StopEv.killCb 1, StopEv.killCb 2, StopEv.removeCb 2] ∧
    1 ∈ (dockerStopModel stopKillOneFails "p"
      [StopEv.killCb 1, StopEv.killCb 2, StopEv.removeCb 2]).killsInvoked ∧
    1 ∉ (dockerStopModel stopKillOneFails "p"
      [StopEv.killCb 1, StopEv.killCb 2, StopEv.removeCb 2]).removesInvoked := by
  decide

/-- Claim C7 (amended): in a deployment with at least one matching
container, `kill` is invoked on every container whose image equals the
package and on no other — there is no first-match short-circuit; and
`remove` is invoked only on matching containers: on every matching
container whose kill succeeded, but not on a match whose kill failed,
since `remove` is chained on the kill callback's success branch. -/
theorem c7_all_matches_stopped (rt : StopRt) (pkg : String)
    (cs : List ContainerInfo) (evs : List StopEv)
    (hl : rt.listResult = Except.ok cs)
    (hm : matchedIds cs pkg ≠ [])
    (hv : ValidSched rt (matchedIds cs pkg) evs) :
    (∀ c, c ∈ cs → c.image = pkg →
      c.id ∈ (dockerStopModel rt pkg evs).killsInvoked) ∧
    (∀ i, i ∈ (dockerStopModel rt pkg evs).killsInvoked →
      ∃ c, c ∈ cs ∧ c.image = pkg ∧ c.id = i) ∧
    (∀ i, i ∈ (dockerStopModel rt pkg evs).removesInvoked →
      ∃ c, c ∈ cs ∧ c.image = pkg ∧ c.id = i) ∧
    (∀ c, c ∈ cs → c.image = pkg → rt.killErr c.id = none →
      c.id ∈ (dockerStopModel rt pkg evs).removesInvoked) := by
  rw [dockerStopModel_kills rt pkg cs evs hl]
  refine ⟨?_, ?_, ?_, ?_⟩
  · intro c hc himg
    exact (matchedIds_mem cs pkg c.id).mpr ⟨c, hc, himg, rfl⟩
  · intro i hi
    exact (matchedIds_mem cs pkg i).mp hi
  · intro i hi
    have h := (dockerStopModel_removes_mem rt pkg cs evs hl i).mp hi
    have hk : i ∈ matchedIds cs pkg := by
      have := hv.2.2 _ h.1
      simpa [evOk] using this
    exact (matchedIds_mem cs pkg i).mp hk
  · intro c hc himg hkill
    rw [dockerStopModel_removes_mem rt pkg cs evs hl]
    have hmem : c.id ∈ matchedIds cs pkg :=
      (matchedIds_mem cs pkg c.id).mpr ⟨c, hc, himg, rfl⟩
    exact ⟨hv.1 c.id hmem, hkill⟩

theorem c7_witness :
    2 ∈ (dockerStopModel stopTwoMatch "p"
      [StopEv.killCb 1, StopEv.killCb 2, StopEv.removeCb 1,
        StopEv.removeCb 2]).removesInvoked :=
  (c7_all_matches_stopped stopTwoMatch "p"
      [{ id := 1, image := "p" }, { id := 2, image := "p" }, { id := 3, image := "q" }]
      [StopEv.killCb 1, StopEv.killCb 2, StopEv.removeCb 1, StopEv.removeCb 2]
      rfl (by decide) (by decide)).2.2.2
    { id := 2, image := "p" } (by decide) rfl rfl

/-- Claim C8: in a deployment where no listed container's image equals
the package (including an empty list), the stop fork resolves
successfully and `kill`/`remove` are invoked on no container: absence of
a match is success, not an error. -/
theorem c8_no_match_resolves (rt : StopRt) (pkg : String)
    (cs : List ContainerInfo) (evs : List StopEv)
    (hl : rt.listResult = Except.ok cs)
    (hm : matchedIds cs pkg = [])
    (hv : ValidSched rt (matchedIds cs pkg) evs) :
    (dockerStopModel rt pkg evs).deferred = some (Except.ok ()) ∧
    (dockerStopModel rt pkg evs).killsInvoked = [] ∧
    (dockerStopModel rt pkg evs).removesInvoked = [] := by
  have hevs : evs = [] := validSched_nil_of_no_match rt evs (hm ▸ hv)
  subst hevs
  simp only [dockerStopModel, hl]
  rw [stopRun_deferred]
  refine ⟨?_, hm, ?_⟩
  · rw [firstSettle_nil, orSettle_none, hm]
    cases cs <;> simp [settleD]
  · simp [stopRun]

theorem c8_witness :
    (dockerStopModel (mkStopRt [{ id := 1, image := "q" }]) "p" []).deferred =
      some (Except.ok ()) :=
  (c8_no_match_resolves (mkStopRt [{ id := 1, image := "q" }]) "p"
    [{ id := 1, image := "q" }] [] rfl (by decide) (by decide)).1

/-- Claim C9 counterexample: the response to a failed deployment is the
body `ERROR\nboom` with HTTP status 200 — Node's default, since the
program never assigns a status code — and 200 is not an error status. -/
theorem c9_cex :
    (handleRequest deployErrBoom "POST" (some "p") none).response =
      some { status := 200, body := "ERROR\nboom" } ∧
    ¬ errorStatus 200 :=
  ⟨rfl, by decide⟩

/-- Claim C9 (amended): every response body is exactly one of `"OK\n"`,
`"ERROR\n"` followed by the failure reason, or `"ILLEGAL REQUEST\n"`,
but the HTTP status code is 200 on every response, regardless of
outcome: the program never sets a status, so there is no error status
on the error path. -/
theorem c9_amended (deploy : String → Option String → Option (Except String Unit))
    (method : String) (package version : Option String) (r : Response)
    (hr : (handleRequest deploy method package version).response = some r) :
    (r.body = "OK\n" ∨ (∃ e, r.body = "ERROR\n" ++ e) ∨ r.body = "ILLEGAL REQUEST\n") ∧
    r.status = 200 := by
  unfold handleRequest at hr
  by_cases hc : method = "POST" ∧ truthyStr package = true
  · rw [if_pos hc] at hr
    simp only [Option.map_eq_some'] at hr
    obtain ⟨o, ho, hro⟩ := hr
    cases o with
    | ok u => subst hro; exact ⟨Or.inl rfl, rfl⟩
    | error e => subst hro; exact ⟨Or.inr (Or.inl ⟨e, rfl⟩), rfl⟩
  · rw [if_neg hc] at hr
    have : r = { status := 200, body := "ILLEGAL REQUEST\n" } := by
      injection hr with h; exact h.symm
    subst this
    exact ⟨Or.inr (Or.inr rfl), rfl⟩

theorem c9_amended_witness :
    ((({ status := 200, body := "ERROR\nboom" } : Response).body = "OK\n" ∨
      (∃ e, ({ status := 200, body := "ERROR\nboom" } : Response).body = "ERROR\n" ++ e) ∨
      ({ status := 200, body := "ERROR\nboom" } : Response).body = "ILLEGAL REQUEST\n") ∧
    ({ status := 200, body := "ERROR\nboom" } : Response).status = 200) :=
  c9_amended deployErrBoom "POST" (some "p") none
    { status := 200, body := "ERROR\nboom" } rfl

/-- Claim C10: with at least one matching container, the stop fork's
deferred settles with exactly the settlement offered by the first
settling callback in arrival order — the first completed removal, or
the first kill/remove failure; such a callback exists in every complete
schedule, and kill/remove callbacks arriving after that settlement
leave the outcome unchanged. -/
theorem c10_first_settlement_wins (rt : StopRt) (pkg : String)
    (cs : List ContainerInfo) (evs : List StopEv)
    (hl : rt.listResult = Except.ok cs)
    (hm : matchedIds cs pkg ≠ [])
    (hv : ValidSched rt (matchedIds cs pkg) evs) :
    (∃ v, firstSettle rt evs = some v) ∧
    (dockerStopModel rt pkg evs).deferred = firstSettle rt evs ∧
    (∀ evs2 v, firstSettle rt evs = some v →
      (dockerStopModel rt pkg (evs ++ evs2)).deferred = some v) := by
  refine ⟨?_, dockerStopModel_deferred_matched rt pkg cs evs hl hm, ?_⟩
  · obtain ⟨i, hi⟩ : ∃ i, i ∈ matchedIds cs pkg := by
      cases h : matchedIds cs pkg with
      | nil => exact absurd h hm
      | cons a l => exact ⟨a, by simp [h]⟩
    cases hk : rt.killErr i with
    | some e =>
      exact firstSettle_isSome_of_mem rt evs (StopEv.killCb i) (hv.1 i hi)
        (Except.error e) (by simp [evSettle, hk])
    | none =>
      cases hr : rt.removeErr i with
      | some e =>
        exact firstSettle_isSome_of_mem rt evs (StopEv.removeCb i) (hv.2.1 i hi hk)
          (Except.error e) (by simp [evSettle, hr])
      | none =>
        exact firstSettle_isSome_of_mem rt evs (StopEv.removeCb i) (hv.2.1 i hi hk)
          (Except.ok ()) (by simp [evSettle, hr])
  · intro evs2 v hf
    rw [dockerStopModel_deferred_matched rt pkg cs (evs ++ evs2) hl hm,
      firstSettle_append, hf]

theorem c10_witness :
    (dockerStopModel stopTwoMatch "p"
      [StopEv.killCb 1, StopEv.killCb 2, StopEv.removeCb 1, StopEv.removeCb 2]).deferred =
      firstSettle stopTwoMatch
        [StopEv.killCb 1, StopEv.killCb 2, StopEv.removeCb 1, StopEv.removeCb 2] :=
  (c10_first_settlement_wins stopTwoMatch "p"
      [{ id := 1, image := "p" }, { id := 2, image := "p" }, { id := 3, image := "q" }]
      [StopEv.killCb 1, StopEv.killCb 2, StopEv.removeCb 1, StopEv.removeCb 2]
      rfl (by decide) (by decide)).2.1

end FintWebhook
